import Mathlib

/-!
A shallow embedding of the wallet coordinator of a small BDK-based wallet
web service (`src/main.rs`, `src/db.rs`): the key bootstrap sequence, the
sync-and-view handler (`home`), the per-transaction projection
(`TxDetails::new`) and the spend handler (`spend`).

External collaborators (address parsing, transaction building, signing,
chain sync, broadcast, persistence) appear as explicit parameters giving
their results, so every handler is a pure function of its inputs and the
collaborator outcomes.  Library panics (`unwrap` / `expect`) are modelled
as distinguished outcomes rather than values.
-/

/-- Rust `u64::MAX`. -/
def U64MAX : Nat := 18446744073709551615

/-- Digit-accumulation loop of Rust `u64::from_str`: fails on the first
non-digit character. -/
def parseU64Core : List Char → Nat → Option Nat
  | [], acc => some acc
  | c :: cs, acc =>
    if c.isDigit then parseU64Core cs (acc * 10 + (c.toNat - 48)) else none

/-- Rust `u64::from_str`: an optional leading `+`, then one or more ASCII
digits, with the value in `u64` range (overflow during accumulation is
equivalent to the final value exceeding `u64::MAX` since appending digits
only grows the value). -/
def parseU64 (s : String) : Option Nat :=
  let cs :=
    match s.data with
    | '+' :: rest => rest
    | cs => cs
  match cs with
  | [] => none
  | _ =>
    match parseU64Core cs 0 with
    | some v => if v ≤ U64MAX then some v else none
    | none => none

/-- Rust `FeeRate::from_sat_per_vb`: converts sat/vB to sat/kwu via
`checked_mul(250)`, `None` on `u64` overflow (zero is accepted). -/
def feeRateFromSatPerVb (n : Nat) : Option Nat :=
  if n * 250 ≤ U64MAX then some (n * 250) else none

/-- Rust `PushBytesBuf::try_from(Vec<u8>)` succeeds exactly when the buffer
length is below 2^32 (the largest script push). -/
def pushBytesLimit : Nat := 4294967296

/-- BDK `ChainPosition<ConfirmationBlockTime>`: `confirmed` holds the block id
(height, hash) and the confirmation time, `unconfirmed` holds a last-seen
timestamp.  The derived Rust `Ord` places every `Confirmed` before every
`Unconfirmed`, orders `Confirmed` lexicographically by (height, hash,
time) and `Unconfirmed` by last-seen. -/
inductive ChainPos where
  | confirmed (height : Nat) (hash : Nat) (time : Nat)
  | unconfirmed (lastSeen : Nat)
deriving DecidableEq, Repr

/-- Rust `Ord::cmp` on unsigned integers. -/
def natCmp (m n : Nat) : Ordering :=
  if m < n then .lt else if n < m then .gt else .eq

/-- The derived `Ord::cmp` on `ChainPosition<ConfirmationBlockTime>`. -/
def cmpChainPos : ChainPos → ChainPos → Ordering
  | .confirmed h1 a1 t1, .confirmed h2 a2 t2 =>
      (natCmp h1 h2).then ((natCmp a1 a2).then (natCmp t1 t2))
  | .confirmed _ _ _, .unconfirmed _ => .lt
  | .unconfirmed _, .confirmed _ _ _ => .gt
  | .unconfirmed l1, .unconfirmed l2 => natCmp l1 l2

/-- One wallet transaction as the handlers see it: its txid, the result of
`wallet.sent_and_received` for it (total wallet-owned input value, total
wallet-owned output value) and its chain position. -/
structure WTx where
  txid : Nat
  sent : Nat
  received : Nat
  chainPos : ChainPos
deriving DecidableEq, Repr

/-- In-memory `PersistedWallet` state: the two keychain derivation indices,
the balance total and the observed wallet transactions. -/
structure WalletSt where
  externalIndex : Nat
  internalIndex : Nat
  balanceSats : Nat
  txs : List WTx
deriving DecidableEq, Repr

/-- The durable `Store<Sqlite>`: the last flushed wallet state. -/
structure StoreSt where
  snapshot : WalletSt
deriving DecidableEq, Repr

/-- Model of `wallet.persist_async(&mut store)`: flush the wallet state durably. -/
def flushStore (w : WalletSt) (_s : StoreSt) : StoreSt := ⟨w⟩

/-- The rendered per-transaction projection (`struct TxDetails`). -/
structure TxDetails where
  txid : Nat
  sent : Nat
  received : Nat
  fee : Nat
  fee_rate : Nat
  chain_position : ChainPos
deriving DecidableEq, Repr

/-- Model of `TxDetails::new`.  `feeRes` and `feeRateRes` give the library results
of `wallet.calculate_fee` and `wallet.calculate_fee_rate` for a txid; the
source `unwrap`s both, and the `Amount` subtraction `sent - received -
fee` panics on underflow — the three panics are modelled by `none`.
Mirrors the source statement order: fee first, then the classification
branch (whose receive arm assigns `sent = 0` and only afterwards computes
`received -= sent`), then the fee rate. -/
def txDetailsNew (wtx : WTx) (feeRes feeRateRes : Nat → Except Unit Nat) :
    Option TxDetails :=
  match feeRes wtx.txid with
  | .error _ => none
  | .ok fee =>
    match
      (if wtx.received < wtx.sent then
        if wtx.sent - wtx.received < fee then none
        else some (wtx.sent - wtx.received - fee, (0 : Nat))
      else
        let sent := 0
        some (sent, wtx.received - sent)) with
    | none => none
    | some (sent, received) =>
      match feeRateRes wtx.txid with
      | .error _ => none
      | .ok fr => some ⟨wtx.txid, sent, received, fee, fr, wtx.chainPos⟩

/-- Model of `wallet.transactions().map(|tx| TxDetails::new(tx, &wallet)).collect()`:
the whole collection panics (`none`) as soon as one projection panics. -/
def listTxDetails (txs : List WTx) (feeRes feeRateRes : Nat → Except Unit Nat) :
    Option (List TxDetails) :=
  match txs with
  | [] => some []
  | t :: rest =>
    match txDetailsNew t feeRes feeRateRes with
    | none => none
    | some d =>
      match listTxDetails rest feeRes feeRateRes with
      | none => none
      | some ds => some (d :: ds)

/-- Stable insertion of one element into an already sorted list, placing it
before the first element it does not strictly exceed. -/
def insertTx (a : TxDetails) : List TxDetails → List TxDetails
  | [] => [a]
  | b :: t =>
    if cmpChainPos a.chain_position b.chain_position = .gt then b :: insertTx a t
    else a :: b :: t

/-- Model of `txs.sort_by(|tx1, tx2| tx1.chain_position.cmp(&tx2.chain_position))`:
Rust `sort_by` is a stable ascending sort by the comparator, realised here
as a stable insertion sort. -/
def sortTxs : List TxDetails → List TxDetails
  | [] => []
  | a :: t => insertTx a (sortTxs t)

/-- Model of `wallet.next_unused_address(External)`: the lowest unused external
derivation index, a pure function of wallet state. -/
def nextUnusedExternal (w : WalletSt) : Nat := w.externalIndex

/-- Possible results of the GET `/` handler: the rendered page, the three
error returns surfaced through `AppError` (`?`), or a panic raised inside
the `TxDetails::new` projection. -/
inductive HomeOutcome where
  | page (nextAddr : Nat) (balance : Nat) (txs : List TxDetails)
  | syncError
  | applyError
  | persistError
  | panicTxDetails
deriving DecidableEq, Repr

/-- Result of the GET `/` handler together with the wallet and store state
it leaves behind. -/
structure HomeResult where
  outcome : HomeOutcome
  wallet : WalletSt
  store : StoreSt
deriving DecidableEq, Repr

/-- GET `/` handler (`home`, the sync-and-view operation).  The sync
request is built under a read lock without mutating state; `syncRes` is
the esplora client result (an opaque update token on success), `applyUpd`
is `wallet.apply_update`, `persistRes` is `wallet.persist_async`, and
`feeRes` / `feeRateRes` are the per-txid fee-calculation collaborators
used by the `TxDetails` projection.  On any `?`-propagated error the
wallet and store are left as they were at that point. -/
def home (w : WalletSt) (s : StoreSt) (syncRes : Except Unit Nat)
    (applyUpd : WalletSt → Nat → Except Unit WalletSt)
    (persistRes : Except Unit Unit)
    (feeRes feeRateRes : Nat → Except Unit Nat) : HomeResult :=
  match syncRes with
  | .error _ => ⟨.syncError, w, s⟩
  | .ok upd =>
    match applyUpd w upd with
    | .error _ => ⟨.applyError, w, s⟩
    | .ok w1 =>
      let nextAddr := nextUnusedExternal w1
      match persistRes with
      | .error _ => ⟨.persistError, w1, s⟩
      | .ok _ =>
        let s1 := flushStore w1 s
        match listTxDetails w1.txs feeRes feeRateRes with
        | none => ⟨.panicTxDetails, w1, s1⟩
        | some ds => ⟨.page nextAddr w1.balanceSats (sortTxs ds), w1, s1⟩

/-- The POST `/` form fields (`struct SpendRequest`), all strings. -/
structure SpendRequest where
  address : String
  amount : String
  fee_rate : String
  note : String
deriving DecidableEq, Repr

/-- Observable events of one spend request, in order: acquiring and
releasing the wallet write lock, calling `client.broadcast` with the
built transaction, acquiring the store write lock, and calling
`wallet.persist_async`. -/
inductive Ev where
  | lockAcquire
  | broadcastCall (txid : Nat)
  | storeLockAcquire
  | persistCall
  | lockRelease
deriving DecidableEq, Repr

/-- Results of the POST `/` handler: the success redirect (which carries no
data), the `?`-propagated `AppError` variants, the `AppError::Finalize`
return for a non-finalized signature, and the validation panics raised by
`expect` / `unwrap`. -/
inductive SpendOutcome where
  | redirect
  | inputError
  | panicInvalid
  | buildError
  | signError
  | extractError
  | broadcastError
  | persistError
  | finalizeError
deriving DecidableEq, Repr

/-- Result of the POST `/` handler together with the wallet and store
state it leaves behind and its event trace. -/
structure SpendResult where
  outcome : SpendOutcome
  wallet : WalletSt
  store : StoreSt
  trace : List Ev
deriving DecidableEq, Repr

/-- POST `/` handler (`spend`).  Validation mirrors the source order:
amount via `u64::from_str` (`?`), address via `Address::from_str` plus
`require_network` (the external parser `parseAddr`, `?`), fee rate via
`u64::from_str` (`?`) then `FeeRate::from_sat_per_vb` (`expect`, a panic
on overflow), note via `PushBytesBuf::try_from` (`unwrap`, a panic at the
push-size limit) — all before the wallet write lock.  `buildRes` is
`tx_builder.finish()` (the built txid on success); a successful build
reveals the next internal (change) derivation index, modelled from the
spec: signing already advanced internal change-keychain bookkeeping in
memory.  `signRes` is `wallet.sign` returning `is_finalized`;
`extractRes` is `psbt.extract_tx()`; `broadcastRes` is
`client.broadcast`; `persistRes` is `wallet.persist_async`, reached only
on the finalized-and-broadcast path. -/
def spend (req : SpendRequest) (parseAddr : String → Option Nat)
    (buildRes : Except Unit Nat) (signRes : Except Unit Bool)
    (extractRes : Except Unit Unit) (broadcastRes : Except Unit Unit)
    (persistRes : Except Unit Unit) (w : WalletSt) (s : StoreSt) :
    SpendResult :=
  match parseU64 req.amount with
  | none => ⟨.inputError, w, s, []⟩
  | some _amount =>
    match parseAddr req.address with
    | none => ⟨.inputError, w, s, []⟩
    | some _spk =>
      match parseU64 req.fee_rate with
      | none => ⟨.inputError, w, s, []⟩
      | some fr =>
        match feeRateFromSatPerVb fr with
        | none => ⟨.panicInvalid, w, s, []⟩
        | some _feeRate =>
          if req.note.utf8ByteSize < pushBytesLimit then
            match buildRes with
            | .error _ => ⟨.buildError, w, s, [.lockAcquire, .lockRelease]⟩
            | .ok txid =>
              let w1 : WalletSt := { w with internalIndex := w.internalIndex + 1 }
              match signRes with
              | .error _ => ⟨.signError, w1, s, [.lockAcquire, .lockRelease]⟩
              | .ok isFinal =>
                if isFinal then
                  match extractRes with
                  | .error _ => ⟨.extractError, w1, s, [.lockAcquire, .lockRelease]⟩
                  | .ok _ =>
                    match broadcastRes with
                    | .error _ =>
                      ⟨.broadcastError, w1, s,
                        [.lockAcquire, .broadcastCall txid, .lockRelease]⟩
                    | .ok _ =>
                      match persistRes with
                      | .error _ =>
                        ⟨.persistError, w1, s,
                          [.lockAcquire, .broadcastCall txid, .storeLockAcquire,
                            .persistCall, .lockRelease]⟩
                      | .ok _ =>
                        ⟨.redirect, w1, flushStore w1 s,
                          [.lockAcquire, .broadcastCall txid, .storeLockAcquire,
                            .persistCall, .lockRelease]⟩
                else ⟨.finalizeError, w1, s, [.lockAcquire, .lockRelease]⟩
          else ⟨.panicInvalid, w, s, []⟩

/-- Whether a trace contains a `client.broadcast` call. -/
def calledBroadcast (tr : List Ev) : Bool :=
  tr.any fun e =>
    match e with
    | .broadcastCall _ => true
    | _ => false

/-- The fixed wallet name (`WALLET_NAME`). -/
def WALLET_NAME : String := "primary"

/-- One row of the `keys` table (a SeedRecord). -/
structure SeedRecord where
  wallet_name : String
  mnemonic : String
deriving DecidableEq, Repr

/-- Model of `load_secret_key_mnemonic`: `SELECT mnemonic FROM keys WHERE
wallet_name = $1`, taking the first matching row if any
(`fetch_optional`). -/
def load_secret_key_mnemonic (db : List SeedRecord) : Option String :=
  (db.find? fun r => r.wallet_name == WALLET_NAME).map fun r => r.mnemonic

/-- Model of `store_secret_key_mnemonic`: generate a fresh mnemonic from external
entropy (the `generated` parameter) and `INSERT INTO keys (wallet_name,
mnemonic) VALUES ($1, $2)`. -/
def store_secret_key_mnemonic (db : List SeedRecord) (generated : String) :
    String × List SeedRecord :=
  (generated, db ++ [⟨WALLET_NAME, generated⟩])

/-- The load-or-create seed sequence of `main`: load the stored mnemonic
for the wallet name, otherwise generate and store a new one, all inside
one storage transaction. -/
def ensure_seed (db : List SeedRecord) (generated : String) :
    String × List SeedRecord :=
  match load_secret_key_mnemonic db with
  | some m => (m, db)
  | none => store_secret_key_mnemonic db generated

/-- Number of `keys` rows for the fixed wallet name. -/
def countSeedRecords (db : List SeedRecord) : Nat :=
  (db.filter fun r => r.wallet_name == WALLET_NAME).length

/-- Ascending-order relation used by the transaction-list sort: the chain
position of the first element does not compare greater than that of the
second. -/
def posLe (a b : TxDetails) : Prop :=
  cmpChainPos a.chain_position b.chain_position ≠ .gt

/-- Swapping the arguments of `natCmp` swaps the resulting ordering. -/
theorem natCmp_swap (m n : Nat) : (natCmp m n).swap = natCmp n m := by
  unfold natCmp
  rcases Nat.lt_trichotomy m n with h | h | h
  · have h2 : ¬ n < m := by omega
    simp [h, h2, Ordering.swap]
  · subst h
    simp [Nat.lt_irrefl, Ordering.swap]
  · have h2 : ¬ m < n := by omega
    simp [h, h2, Ordering.swap]

/-- Swap distributes over the lexicographic combination of orderings. -/
theorem ordering_then_swap (o1 o2 : Ordering) :
    (o1.then o2).swap = o1.swap.then o2.swap := by
  cases o1 <;> rfl

/-- Swapping the arguments of `cmpChainPos` swaps the resulting ordering. -/
theorem cmpChainPos_swap (p q : ChainPos) : (cmpChainPos p q).swap = cmpChainPos q p := by
  cases p <;> cases q <;>
    simp only [cmpChainPos, ordering_then_swap, natCmp_swap] <;> rfl

/-- If a chain position compares greater than another, the reverse
comparison yields less. -/
theorem cmpChainPos_gt_asymm {p q : ChainPos} (h : cmpChainPos p q = .gt) :
    cmpChainPos q p = .lt := by
  rw [← cmpChainPos_swap, h]
  rfl

/-- Characterisation of `natCmp` returning less. -/
theorem natCmp_lt_iff (m n : Nat) : natCmp m n = .lt ↔ m < n := by
  unfold natCmp
  rcases Nat.lt_trichotomy m n with h | h | h
  · simp [h]
    try omega
  · subst h
    simp [Nat.lt_irrefl]
  · have h2 : ¬ m < n := by omega
    simp [h, h2]
    try omega

/-- Characterisation of `natCmp` returning equal. -/
theorem natCmp_eq_iff (m n : Nat) : natCmp m n = .eq ↔ m = n := by
  unfold natCmp
  rcases Nat.lt_trichotomy m n with h | h | h
  · simp [h]
    try omega
  · subst h
    simp [Nat.lt_irrefl]
  · have h2 : ¬ m < n := by omega
    simp [h, h2]
    try omega

/-- Characterisation of `natCmp` not returning greater. -/
theorem natCmp_ne_gt_iff (m n : Nat) : natCmp m n ≠ .gt ↔ m ≤ n := by
  unfold natCmp
  rcases Nat.lt_trichotomy m n with h | h | h
  · simp [h]
    try omega
  · subst h
    simp [Nat.lt_irrefl]
  · have h2 : ¬ m < n := by omega
    simp [h, h2]
    try omega

/-- A lexicographic combination is not greater exactly when the first
component is less, or equal with the second component not greater. -/
theorem ordering_then_ne_gt (o p : Ordering) :
    o.then p ≠ .gt ↔ o = .lt ∨ (o = .eq ∧ p ≠ .gt) := by
  cases o <;> simp [Ordering.then]

/-- The not-greater relation on chain positions is transitive. -/
theorem cmpChainPos_le_trans {p q r : ChainPos}
    (h1 : cmpChainPos p q ≠ .gt) (h2 : cmpChainPos q r ≠ .gt) :
    cmpChainPos p r ≠ .gt := by
  cases p <;> cases q <;> cases r <;>
    simp_all [cmpChainPos, ordering_then_ne_gt, natCmp_lt_iff, natCmp_eq_iff,
      natCmp_ne_gt_iff] <;>
    omega

/-- Inserting into a list whose adjacent pairs are ordered preserves that
ordering. -/
theorem chain_insertTx (a : TxDetails) (l : List TxDetails)
    (hl : List.Chain' posLe l) : List.Chain' posLe (insertTx a l) := by
  induction l with
  | nil => simp [insertTx]
  | cons b t ih =>
    rw [insertTx]
    by_cases hab : cmpChainPos a.chain_position b.chain_position = .gt
    · rw [if_pos hab]
      rw [List.chain'_cons'] at hl ⊢
      obtain ⟨hbh, ht⟩ := hl
      refine ⟨?_, ih ht⟩
      intro c hc
      cases t with
      | nil =>
        simp [insertTx] at hc
        subst hc
        simp [posLe, cmpChainPos_gt_asymm hab]
      | cons d t2 =>
        rw [insertTx] at hc
        by_cases had : cmpChainPos a.chain_position d.chain_position = .gt
        · rw [if_pos had] at hc
          simp at hc
          subst hc
          exact hbh d (by simp)
        · rw [if_neg had] at hc
          simp at hc
          subst hc
          simp [posLe, cmpChainPos_gt_asymm hab]
    · rw [if_neg hab]
      exact List.chain'_cons.mpr ⟨hab, hl⟩

/-- Insertion produces a permutation of consing the element. -/
theorem perm_insertTx (a : TxDetails) (l : List TxDetails) :
    List.Perm (insertTx a l) (a :: l) := by
  induction l with
  | nil => rfl
  | cons b t ih =>
    rw [insertTx]
    by_cases hab : cmpChainPos a.chain_position b.chain_position = .gt
    · rw [if_pos hab]
      exact (List.Perm.cons b ih).trans (List.Perm.swap a b t)
    · rw [if_neg hab]

/-- Adjacent pairs of the sorted transaction list are ordered. -/
theorem sortTxs_chain (l : List TxDetails) : List.Chain' posLe (sortTxs l) := by
  induction l with
  | nil => simp [sortTxs]
  | cons a t ih =>
    rw [sortTxs]
    exact chain_insertTx a _ ih

/-- Every pair of elements of the sorted transaction list, not only
adjacent ones, is ordered. -/
theorem sortTxs_pairwise (l : List TxDetails) : List.Pairwise posLe (sortTxs l) := by
  haveI : IsTrans TxDetails posLe := ⟨fun _ _ _ h1 h2 => cmpChainPos_le_trans h1 h2⟩
  exact List.chain'_iff_pairwise.mp (sortTxs_chain l)

/-- Sorting permutes the transaction list. -/
theorem sortTxs_perm (l : List TxDetails) : List.Perm (sortTxs l) l := by
  induction l with
  | nil => rfl
  | cons a t ih =>
    rw [sortTxs]
    exact (perm_insertTx a _).trans (List.Perm.cons a ih)

/-- If one wallet transaction's projection panics, projecting the whole
list panics. -/
theorem listTxDetails_none_of_mem (txs : List WTx) (f g : Nat → Except Unit Nat)
    (wtx : WTx) (hmem : wtx ∈ txs) (hfail : txDetailsNew wtx f g = none) :
    listTxDetails txs f g = none := by
  induction txs with
  | nil => cases hmem
  | cons t rest ih =>
    rcases List.mem_cons.mp hmem with rfl | hmem2
    · simp [listTxDetails, hfail]
    · cases htd : txDetailsNew t f g with
      | none => simp [listTxDetails, htd]
      | some d => simp [listTxDetails, htd, ih hmem2]

/-- C1: the claim states that for every wallet transaction whose
wallet-owned input value does not exceed its wallet-owned output value,
`TxDetails::new` yields `received = output_value - input_value` and
`sent = 0`.  The code contradicts it: the receive branch assigns
`sent = Amount::ZERO` first and only then executes `received -= sent`,
subtracting nothing.  At the failing input (owned inputs 5000, owned
outputs 10000, fee 100) the projection displays the full output value
10000 instead of 10000 - 5000 = 5000. -/
theorem txdetails_receive_branch_keeps_full_output :
    txDetailsNew ⟨7, 5000, 10000, .unconfirmed 0⟩ (fun _ => .ok 100) (fun _ => .ok 2)
      = some ⟨7, 0, 10000, 100, 2, .unconfirmed 0⟩ ∧ (10000 : Nat) - 5000 ≠ 10000 := by
  decide

/-- C2 counterexample: for the claimed scenario (wallet owns all inputs
totaling 10000 sats, one output back to the wallet of 9900 sats, fee 100)
the code computes `sent = 10000 - 9900 - 100 = 0`, not the claimed
`sent = 100`. -/
theorem selftransfer_sent_is_zero_not_fee :
    (txDetailsNew ⟨1, 10000, 9900, .unconfirmed 0⟩ (fun _ => .ok 100) (fun _ => .ok 2)).map
        (fun d => (d.sent, d.received)) = some (0, 0) ∧ (0 : Nat) ≠ 100 := by
  decide

/-- C2 (amended): a pure self-transfer — the wallet owns all inputs and
all outputs, with owned inputs exceeding owned outputs exactly by the
fee — is classified as a net spend with `received = 0` and
`sent = input_value - output_value - fee = 0`: the fee is subtracted out
of `sent`, so the projection shows zero, not the fee. -/
theorem selftransfer_projection (wtx : WTx) (f g : Nat → Except Unit Nat)
    (fee feeRate : Nat)
    (hf : f wtx.txid = .ok fee) (hg : g wtx.txid = .ok feeRate)
    (hlt : wtx.received < wtx.sent) (hsum : wtx.sent = wtx.received + fee) :
    txDetailsNew wtx f g = some ⟨wtx.txid, 0, 0, fee, feeRate, wtx.chainPos⟩ := by
  have h1 : wtx.sent - wtx.received = fee := by omega
  have h2 : ¬ (wtx.sent - wtx.received < fee) := by omega
  simp [txDetailsNew, hf, hg, hlt, h1, h2]

/-- C2 witness: the amended statement at the concrete inputs of the claim
(owned inputs 10000, owned outputs 9900, fee 100). -/
theorem selftransfer_projection_witness :
    txDetailsNew ⟨1, 10000, 9900, .unconfirmed 0⟩ (fun _ => .ok 100) (fun _ => .ok 2)
      = some ⟨1, 0, 0, 100, 2, .unconfirmed 0⟩ :=
  selftransfer_projection ⟨1, 10000, 9900, .unconfirmed 0⟩ (fun _ => .ok 100)
    (fun _ => .ok 2) 100 2 rfl rfl (by decide) (by decide)

/-- C3 counterexample: a spend whose signing returns a non-finalized
signature does reach the terminal `AppError::Finalize` failure, but the
in-memory wallet state is not byte-for-byte unchanged — transaction
building advanced the internal change-keychain index. -/
theorem nonfinalized_mutates_wallet_state :
    (spend ⟨"ax", "700", "3", ""⟩ (fun _ => some 2) (.ok 12) (.ok false)
        (.ok ()) (.ok ()) (.ok ()) ⟨5, 9, 0, []⟩ ⟨⟨5, 9, 0, []⟩⟩).outcome = .finalizeError ∧
    (spend ⟨"ax", "700", "3", ""⟩ (fun _ => some 2) (.ok 12) (.ok false)
        (.ok ()) (.ok ()) (.ok ()) ⟨5, 9, 0, []⟩ ⟨⟨5, 9, 0, []⟩⟩).wallet ≠ ⟨5, 9, 0, []⟩ := by
  decide

/-- C3 (amended): for every spend that passes validation, builds, and then
signs to a non-finalized signature, the operation returns the terminal
`AppError::Finalize` failure, never calls broadcast, never persists, and
leaves the durable store unchanged; the in-memory wallet state, however,
carries the advanced internal change-keychain index. -/
theorem nonfinalized_no_broadcast_no_persist
    (req : SpendRequest) (pa : String → Option Nat)
    (buildRes : Except Unit Nat)
    (extractRes broadcastRes persistRes : Except Unit Unit)
    (w : WalletSt) (s : StoreSt) (a spk fr frk t : Nat)
    (hA : parseU64 req.amount = some a)
    (hAd : pa req.address = some spk)
    (hF : parseU64 req.fee_rate = some fr)
    (hFR : feeRateFromSatPerVb fr = some frk)
    (hN : req.note.utf8ByteSize < pushBytesLimit)
    (hB : buildRes = .ok t) :
    (spend req pa buildRes (.ok false) extractRes broadcastRes persistRes w s).outcome
        = .finalizeError ∧
    calledBroadcast
        (spend req pa buildRes (.ok false) extractRes broadcastRes persistRes w s).trace
      = false ∧
    Ev.persistCall ∉
        (spend req pa buildRes (.ok false) extractRes broadcastRes persistRes w s).trace ∧
    (spend req pa buildRes (.ok false) extractRes broadcastRes persistRes w s).store = s ∧
    (spend req pa buildRes (.ok false) extractRes broadcastRes persistRes w s).wallet
      = { w with internalIndex := w.internalIndex + 1 } := by
  simp [spend, hA, hAd, hF, hFR, hN, hB, calledBroadcast]

/-- C3 witness: the amended statement at a concrete non-finalized run. -/
theorem nonfinalized_no_broadcast_no_persist_witness :
    (spend ⟨"ad1", "1000", "2", ""⟩ (fun _ => some 4) (.ok 11) (.ok false)
        (.ok ()) (.ok ()) (.ok ()) ⟨0, 0, 0, []⟩ ⟨⟨0, 0, 0, []⟩⟩).outcome = .finalizeError ∧
    calledBroadcast (spend ⟨"ad1", "1000", "2", ""⟩ (fun _ => some 4) (.ok 11) (.ok false)
        (.ok ()) (.ok ()) (.ok ()) ⟨0, 0, 0, []⟩ ⟨⟨0, 0, 0, []⟩⟩).trace = false ∧
    Ev.persistCall ∉ (spend ⟨"ad1", "1000", "2", ""⟩ (fun _ => some 4) (.ok 11) (.ok false)
        (.ok ()) (.ok ()) (.ok ()) ⟨0, 0, 0, []⟩ ⟨⟨0, 0, 0, []⟩⟩).trace ∧
    (spend ⟨"ad1", "1000", "2", ""⟩ (fun _ => some 4) (.ok 11) (.ok false)
        (.ok ()) (.ok ()) (.ok ()) ⟨0, 0, 0, []⟩ ⟨⟨0, 0, 0, []⟩⟩).store = ⟨⟨0, 0, 0, []⟩⟩ ∧
    (spend ⟨"ad1", "1000", "2", ""⟩ (fun _ => some 4) (.ok 11) (.ok false)
        (.ok ()) (.ok ()) (.ok ()) ⟨0, 0, 0, []⟩ ⟨⟨0, 0, 0, []⟩⟩).wallet
      = { (⟨0, 0, 0, []⟩ : WalletSt) with internalIndex := (0 : Nat) + 1 } :=
  nonfinalized_no_broadcast_no_persist ⟨"ad1", "1000", "2", ""⟩ (fun _ => some 4) (.ok 11)
    (.ok ()) (.ok ()) (.ok ()) ⟨0, 0, 0, []⟩ ⟨⟨0, 0, 0, []⟩⟩ 1000 4 2 500 11
    (by decide) rfl (by decide) (by decide) (by decide) rfl

/-- C4 counterexample: the success return of the spend handler is the
fixed redirect `Redirect::to("/")` and carries no data — two successful
runs that broadcast different transactions (their traces differ in the
broadcast txid) return identical values, so the broadcast transaction
identifier is not returned. -/
theorem spend_success_response_ignores_txid :
    (spend ⟨"a4", "900", "3", ""⟩ (fun _ => some 2) (.ok 1) (.ok true) (.ok ()) (.ok ())
        (.ok ()) ⟨0, 0, 0, []⟩ ⟨⟨0, 0, 0, []⟩⟩).outcome = .redirect ∧
    (spend ⟨"a4", "900", "3", ""⟩ (fun _ => some 2) (.ok 2) (.ok true) (.ok ()) (.ok ())
        (.ok ()) ⟨0, 0, 0, []⟩ ⟨⟨0, 0, 0, []⟩⟩).outcome
      = (spend ⟨"a4", "900", "3", ""⟩ (fun _ => some 2) (.ok 1) (.ok true) (.ok ()) (.ok ())
        (.ok ()) ⟨0, 0, 0, []⟩ ⟨⟨0, 0, 0, []⟩⟩).outcome ∧
    (spend ⟨"a4", "900", "3", ""⟩ (fun _ => some 2) (.ok 1) (.ok true) (.ok ()) (.ok ())
        (.ok ()) ⟨0, 0, 0, []⟩ ⟨⟨0, 0, 0, []⟩⟩).trace
      ≠ (spend ⟨"a4", "900", "3", ""⟩ (fun _ => some 2) (.ok 2) (.ok true) (.ok ()) (.ok ())
        (.ok ()) ⟨0, 0, 0, []⟩ ⟨⟨0, 0, 0, []⟩⟩).trace ∧
    (1 : Nat) ≠ 2 := by
  decide

/-- C4 (amended): `wallet.persist_async` is invoked if and only if the
broadcast call happened and succeeded; on the successful-broadcast path
the trace is exactly lock acquire, broadcast, store lock, persist, lock
release — so the flush happens while the write lock is still held — and
when the flush succeeds the store holds the updated wallet state and a
success redirect (carrying no transaction identifier) is returned; on
broadcast failure nothing is persisted, the store is unchanged and the
broadcast error is returned. -/
theorem persist_iff_broadcast_success
    (req : SpendRequest) (pa : String → Option Nat)
    (buildRes : Except Unit Nat) (signRes : Except Unit Bool)
    (extractRes broadcastRes persistRes : Except Unit Unit)
    (w : WalletSt) (s : StoreSt) :
    (Ev.persistCall ∈
        (spend req pa buildRes signRes extractRes broadcastRes persistRes w s).trace
      ↔ calledBroadcast
            (spend req pa buildRes signRes extractRes broadcastRes persistRes w s).trace
          = true ∧ broadcastRes = .ok ()) ∧
    (broadcastRes = .error () →
      (spend req pa buildRes signRes extractRes broadcastRes persistRes w s).store = s) ∧
    (∀ t, buildRes = .ok t → signRes = .ok true → extractRes = .ok () →
      broadcastRes = .ok () →
      Ev.lockAcquire ∈
        (spend req pa buildRes signRes extractRes broadcastRes persistRes w s).trace →
      (spend req pa buildRes signRes extractRes broadcastRes persistRes w s).trace
        = [.lockAcquire, .broadcastCall t, .storeLockAcquire, .persistCall, .lockRelease] ∧
      (persistRes = .ok () →
        (spend req pa buildRes signRes extractRes broadcastRes persistRes w s).outcome
            = .redirect ∧
        (spend req pa buildRes signRes extractRes broadcastRes persistRes w s).store
            = flushStore
                (spend req pa buildRes signRes extractRes broadcastRes persistRes w s).wallet
                s)) ∧
    (broadcastRes = .error () → ∀ t2,
      Ev.broadcastCall t2 ∈
        (spend req pa buildRes signRes extractRes broadcastRes persistRes w s).trace →
      (spend req pa buildRes signRes extractRes broadcastRes persistRes w s).outcome
        = .broadcastError) := by
  cases hA : parseU64 req.amount with
  | none => simp [spend, hA, calledBroadcast]
  | some a =>
    cases hAd : pa req.address with
    | none => simp [spend, hA, hAd, calledBroadcast]
    | some spk =>
      cases hF : parseU64 req.fee_rate with
      | none => simp [spend, hA, hAd, hF, calledBroadcast]
      | some fr =>
        cases hFR : feeRateFromSatPerVb fr with
        | none => simp [spend, hA, hAd, hF, hFR, calledBroadcast]
        | some frk =>
          by_cases hN : req.note.utf8ByteSize < pushBytesLimit
          · cases hB : buildRes with
            | error e =>
              cases e
              simp [spend, hA, hAd, hF, hFR, hN, hB, calledBroadcast]
            | ok t =>
              cases hS : signRes with
              | error e =>
                cases e
                simp [spend, hA, hAd, hF, hFR, hN, hS, calledBroadcast]
              | ok b =>
                cases b with
                | false => simp [spend, hA, hAd, hF, hFR, hN, hS, calledBroadcast]
                | true =>
                  cases hE : extractRes with
                  | error e =>
                    cases e
                    simp [spend, hA, hAd, hF, hFR, hN, hE, calledBroadcast]
                  | ok u =>
                    cases u
                    cases hBC : broadcastRes with
                    | error e =>
                      cases e
                      simp [spend, hA, hAd, hF, hFR, hN, hBC, calledBroadcast]
                    | ok u2 =>
                      cases u2
                      cases hP : persistRes with
                      | error e =>
                        cases e
                        simp [spend, hA, hAd, hF, hFR, hN, hP, calledBroadcast]
                      | ok u3 =>
                        cases u3
                        simp [spend, hA, hAd, hF, hFR, hN, hP, calledBroadcast,
                          flushStore]
          · simp [spend, hA, hAd, hF, hFR, hN, calledBroadcast]

/-- C4 witness: the amended statement on a concrete successful run. -/
theorem persist_iff_broadcast_success_witness :
    (spend ⟨"ad3", "800", "2", ""⟩ (fun _ => some 6) (.ok 5) (.ok true) (.ok ()) (.ok ())
        (.ok ()) ⟨1, 1, 0, []⟩ ⟨⟨1, 1, 0, []⟩⟩).trace
      = [.lockAcquire, .broadcastCall 5, .storeLockAcquire, .persistCall, .lockRelease] ∧
    (spend ⟨"ad3", "800", "2", ""⟩ (fun _ => some 6) (.ok 5) (.ok true) (.ok ()) (.ok ())
        (.ok ()) ⟨1, 1, 0, []⟩ ⟨⟨1, 1, 0, []⟩⟩).outcome = .redirect ∧
    (spend ⟨"ad3", "800", "2", ""⟩ (fun _ => some 6) (.ok 5) (.ok true) (.ok ()) (.ok ())
        (.ok ()) ⟨1, 1, 0, []⟩ ⟨⟨1, 1, 0, []⟩⟩).store
      = flushStore (spend ⟨"ad3", "800", "2", ""⟩ (fun _ => some 6) (.ok 5) (.ok true)
          (.ok ()) (.ok ()) (.ok ()) ⟨1, 1, 0, []⟩ ⟨⟨1, 1, 0, []⟩⟩).wallet ⟨⟨1, 1, 0, []⟩⟩ := by
  have h := (persist_iff_broadcast_success ⟨"ad3", "800", "2", ""⟩ (fun _ => some 6) (.ok 5)
    (.ok true) (.ok ()) (.ok ()) (.ok ()) ⟨1, 1, 0, []⟩ ⟨⟨1, 1, 0, []⟩⟩).2.2.1 5 rfl rfl rfl
    rfl (by decide)
  exact ⟨h.1, (h.2 rfl).1, (h.2 rfl).2⟩

/-- C5: the key bootstrap is idempotent — running the load-or-create
sequence twice from an empty store returns the freshly generated phrase
both times and leaves exactly one SeedRecord row for the wallet name, and
whenever a record already exists its phrase is returned unchanged with no
row written. -/
theorem ensure_seed_idempotent (g1 g2 g3 m : String) (db : List SeedRecord)
    (h : load_secret_key_mnemonic db = some m) :
    (ensure_seed [] g1).1 = g1 ∧
    ensure_seed (ensure_seed [] g1).2 g2 = (g1, (ensure_seed [] g1).2) ∧
    countSeedRecords (ensure_seed [] g1).2 = 1 ∧
    ensure_seed db g3 = (m, db) := by
  refine ⟨rfl, ?_, ?_, ?_⟩
  · simp [ensure_seed, load_secret_key_mnemonic, store_secret_key_mnemonic, List.find?]
  · simp [ensure_seed, load_secret_key_mnemonic, store_secret_key_mnemonic,
      countSeedRecords, List.filter]
  · simp [ensure_seed, h]

/-- C5 witness: the statement at concrete generated phrases and a concrete
pre-populated store. -/
theorem ensure_seed_idempotent_witness :
    (ensure_seed [] "alpha").1 = "alpha" ∧
    ensure_seed (ensure_seed [] "alpha").2 "beta" = ("alpha", (ensure_seed [] "alpha").2) ∧
    countSeedRecords (ensure_seed [] "alpha").2 = 1 ∧
    ensure_seed [⟨"primary", "words"⟩] "gamma" = ("words", [⟨"primary", "words"⟩]) :=
  ensure_seed_idempotent "alpha" "beta" "gamma" "words" [⟨"primary", "words"⟩] (by decide)

/-- C6 counterexample: the claim counts a non-positive fee rate as an
intent-validation failure that must be rejected with a client input error
before any lock, but a request with fee rate zero passes validation
(`FeeRate::from_sat_per_vb` accepts 0): the handler acquires the write
lock, proceeds to a successful spend, and mutates state. -/
theorem zero_fee_rate_passes_validation :
    (spend ⟨"a2", "1000", "0", ""⟩ (fun _ => some 1) (.ok 3) (.ok true) (.ok ())
        (.ok ()) (.ok ()) ⟨0, 0, 0, []⟩ ⟨⟨0, 0, 0, []⟩⟩).outcome = .redirect ∧
    Ev.lockAcquire ∈ (spend ⟨"a2", "1000", "0", ""⟩ (fun _ => some 1) (.ok 3) (.ok true)
        (.ok ()) (.ok ()) (.ok ()) ⟨0, 0, 0, []⟩ ⟨⟨0, 0, 0, []⟩⟩).trace ∧
    (spend ⟨"a2", "1000", "0", ""⟩ (fun _ => some 1) (.ok 3) (.ok true) (.ok ())
        (.ok ()) (.ok ()) ⟨0, 0, 0, []⟩ ⟨⟨0, 0, 0, []⟩⟩).wallet ≠ ⟨0, 0, 0, []⟩ := by
  decide

/-- C6 (amended): every spend request whose amount, destination address,
or fee-rate string fails to parse is rejected with a client input error
before any lock is acquired (empty trace) and causes zero observable
state change; a zero fee rate, by contrast, passes validation, and the
oversized-note and fee-rate-overflow checks panic instead of returning an
input error. -/
theorem parse_failures_rejected_before_lock
    (req : SpendRequest) (pa : String → Option Nat)
    (buildRes : Except Unit Nat) (signRes : Except Unit Bool)
    (extractRes broadcastRes persistRes : Except Unit Unit)
    (w : WalletSt) (s : StoreSt)
    (h : parseU64 req.amount = none ∨ pa req.address = none ∨ parseU64 req.fee_rate = none) :
    spend req pa buildRes signRes extractRes broadcastRes persistRes w s
      = ⟨.inputError, w, s, []⟩ := by
  rcases h with h | h | h
  · simp [spend, h]
  · cases hA : parseU64 req.amount <;> simp [spend, hA, h]
  · cases hA : parseU64 req.amount <;> cases hAd : pa req.address <;>
      simp [spend, hA, hAd, h]

/-- C6 witness: the request with amount string abc is rejected as a client
input error before any lock with zero state change. -/
theorem parse_failures_rejected_before_lock_witness :
    spend ⟨"zaddr", "abc", "1", ""⟩ (fun _ => some 1) (.ok 0) (.ok true) (.ok ()) (.ok ())
        (.ok ()) ⟨0, 0, 0, []⟩ ⟨⟨0, 0, 0, []⟩⟩
      = ⟨.inputError, ⟨0, 0, 0, []⟩, ⟨⟨0, 0, 0, []⟩⟩, []⟩ :=
  parse_failures_rejected_before_lock ⟨"zaddr", "abc", "1", ""⟩ (fun _ => some 1) (.ok 0)
    (.ok true) (.ok ()) (.ok ()) (.ok ()) ⟨0, 0, 0, []⟩ ⟨⟨0, 0, 0, []⟩⟩ (Or.inl (by decide))

/-- C7: if the chain-sync fetch fails, the sync-and-view operation returns
the recoverable sync error to the caller and leaves the wallet state and
the durable store exactly as they were: no update applied, nothing
persisted. -/
theorem sync_failure_leaves_state_unchanged (w : WalletSt) (s : StoreSt) (e : Unit)
    (applyUpd : WalletSt → Nat → Except Unit WalletSt)
    (persistRes : Except Unit Unit) (feeRes feeRateRes : Nat → Except Unit Nat) :
    home w s (.error e) applyUpd persistRes feeRes feeRateRes = ⟨.syncError, w, s⟩ := rfl

/-- C8: the transaction list is sorted by chain position — every pair of
elements of the output respects the derived order in which all confirmed
positions (ascending by height, hash, time) precede all unconfirmed ones
— the output is a permutation of the input, the concrete list of one
unconfirmed and two confirmed transactions at heights 100 and 200 sorts
to (height 100), (height 200), (unconfirmed), and positionally tied
elements keep their input order (stability); the sort is a pure function,
so repeated calls on unchanged input give identical output. -/
theorem tx_list_sorted_by_chain_position :
    (∀ l : List TxDetails, List.Pairwise posLe (sortTxs l)) ∧
    (∀ l : List TxDetails, List.Perm (sortTxs l) l) ∧
    sortTxs [⟨1, 0, 0, 0, 0, .unconfirmed 5⟩, ⟨2, 0, 0, 0, 0, .confirmed 200 40 9000⟩,
        ⟨3, 0, 0, 0, 0, .confirmed 100 30 8000⟩]
      = [⟨3, 0, 0, 0, 0, .confirmed 100 30 8000⟩, ⟨2, 0, 0, 0, 0, .confirmed 200 40 9000⟩,
        ⟨1, 0, 0, 0, 0, .unconfirmed 5⟩] ∧
    sortTxs [⟨1, 0, 0, 0, 0, .unconfirmed 7⟩, ⟨2, 0, 0, 0, 0, .unconfirmed 7⟩]
      = [⟨1, 0, 0, 0, 0, .unconfirmed 7⟩, ⟨2, 0, 0, 0, 0, .unconfirmed 7⟩] :=
  ⟨sortTxs_pairwise, sortTxs_perm, by decide, by decide⟩

/-- C9: whenever a spend fails after the transaction has been built
(non-finalized signature, or finalized with a failed broadcast), the
in-memory wallet state left behind carries the internal change-keychain
index advanced by transaction building — it differs from the pre-spend
state and is not rolled back before the write lock is released (the trace
ends with the lock release) — while the durable store is untouched, so
the pre-spend state survives only in storage. -/
theorem failed_spend_keeps_advanced_index
    (req : SpendRequest) (pa : String → Option Nat)
    (buildRes : Except Unit Nat) (signRes : Except Unit Bool)
    (extractRes broadcastRes persistRes : Except Unit Unit)
    (w : WalletSt) (s : StoreSt) (a spk fr frk t : Nat)
    (hA : parseU64 req.amount = some a)
    (hAd : pa req.address = some spk)
    (hF : parseU64 req.fee_rate = some fr)
    (hFR : feeRateFromSatPerVb fr = some frk)
    (hN : req.note.utf8ByteSize < pushBytesLimit)
    (hB : buildRes = .ok t)
    (hfail : signRes = .ok false ∨
      (signRes = .ok true ∧ extractRes = .ok () ∧ broadcastRes = .error ())) :
    (spend req pa buildRes signRes extractRes broadcastRes persistRes w s).wallet
        = { w with internalIndex := w.internalIndex + 1 } ∧
    (spend req pa buildRes signRes extractRes broadcastRes persistRes w s).wallet ≠ w ∧
    (spend req pa buildRes signRes extractRes broadcastRes persistRes w s).store = s ∧
    Ev.persistCall ∉
        (spend req pa buildRes signRes extractRes broadcastRes persistRes w s).trace ∧
    (spend req pa buildRes signRes extractRes broadcastRes persistRes w s).trace.getLast?
        = some Ev.lockRelease := by
  have hne : ({ w with internalIndex := w.internalIndex + 1 } : WalletSt) ≠ w := by
    intro heq
    have h2 := congrArg WalletSt.internalIndex heq
    simp at h2
  rcases hfail with h | ⟨h1, h2, h3⟩
  · simp [spend, hA, hAd, hF, hFR, hN, hB, h, hne, List.getLast?]
  · simp [spend, hA, hAd, hF, hFR, hN, hB, h1, h2, h3, hne, List.getLast?]

/-- C9 witness: the statement at a concrete broadcast-failure run. -/
theorem failed_spend_keeps_advanced_index_witness :
    (spend ⟨"ad2", "500", "1", ""⟩ (fun _ => some 9) (.ok 21) (.ok true)
        (.ok ()) (.error ()) (.ok ()) ⟨2, 3, 0, []⟩ ⟨⟨2, 3, 0, []⟩⟩).wallet
      = { (⟨2, 3, 0, []⟩ : WalletSt) with internalIndex := (3 : Nat) + 1 } ∧
    (spend ⟨"ad2", "500", "1", ""⟩ (fun _ => some 9) (.ok 21) (.ok true)
        (.ok ()) (.error ()) (.ok ()) ⟨2, 3, 0, []⟩ ⟨⟨2, 3, 0, []⟩⟩).wallet ≠ ⟨2, 3, 0, []⟩ ∧
    (spend ⟨"ad2", "500", "1", ""⟩ (fun _ => some 9) (.ok 21) (.ok true)
        (.ok ()) (.error ()) (.ok ()) ⟨2, 3, 0, []⟩ ⟨⟨2, 3, 0, []⟩⟩).store = ⟨⟨2, 3, 0, []⟩⟩ ∧
    Ev.persistCall ∉ (spend ⟨"ad2", "500", "1", ""⟩ (fun _ => some 9) (.ok 21) (.ok true)
        (.ok ()) (.error ()) (.ok ()) ⟨2, 3, 0, []⟩ ⟨⟨2, 3, 0, []⟩⟩).trace ∧
    (spend ⟨"ad2", "500", "1", ""⟩ (fun _ => some 9) (.ok 21) (.ok true)
        (.ok ()) (.error ()) (.ok ()) ⟨2, 3, 0, []⟩ ⟨⟨2, 3, 0, []⟩⟩).trace.getLast?
      = some Ev.lockRelease :=
  failed_spend_keeps_advanced_index ⟨"ad2", "500", "1", ""⟩ (fun _ => some 9) (.ok 21)
    (.ok true) (.ok ()) (.error ()) (.ok ()) ⟨2, 3, 0, []⟩ ⟨⟨2, 3, 0, []⟩⟩ 500 9 1 250 21
    (by decide) rfl (by decide) (by decide) (by decide) rfl (Or.inr ⟨rfl, rfl, rfl⟩)

/-- C10: the per-transaction projection is partial — when the library fee
calculation fails for a wallet transaction, `TxDetails::new` panics
(models the `unwrap`), and a sync-and-view request over a wallet
containing such a transaction ends in that panic rather than any of the
error responses. -/
theorem fee_calc_failure_panics_home
    (w w1 : WalletSt) (s : StoreSt) (upd : Nat)
    (applyUpd : WalletSt → Nat → Except Unit WalletSt)
    (feeRes feeRateRes : Nat → Except Unit Nat) (wtx : WTx)
    (happly : applyUpd w upd = .ok w1)
    (hmem : wtx ∈ w1.txs)
    (hfee : feeRes wtx.txid = .error ()) :
    txDetailsNew wtx feeRes feeRateRes = none ∧
    (home w s (.ok upd) applyUpd (.ok ()) feeRes feeRateRes).outcome = .panicTxDetails := by
  have h1 : txDetailsNew wtx feeRes feeRateRes = none := by
    simp [txDetailsNew, hfee]
  refine ⟨h1, ?_⟩
  simp [home, happly, listTxDetails_none_of_mem _ _ _ _ hmem h1]

/-- C10 witness: the statement at a concrete wallet holding one
transaction whose fee calculation fails. -/
theorem fee_calc_failure_panics_home_witness :
    txDetailsNew ⟨9, 0, 800, .unconfirmed 3⟩ (fun _ => .error ()) (fun _ => .ok 1) = none ∧
    (home ⟨0, 0, 0, []⟩ ⟨⟨0, 0, 0, []⟩⟩ (.ok 0)
        (fun _ _ => .ok ⟨0, 0, 800, [⟨9, 0, 800, .unconfirmed 3⟩]⟩) (.ok ())
        (fun _ => .error ()) (fun _ => .ok 1)).outcome = .panicTxDetails :=
  fee_calc_failure_panics_home ⟨0, 0, 0, []⟩ ⟨0, 0, 800, [⟨9, 0, 800, .unconfirmed 3⟩]⟩
    ⟨⟨0, 0, 0, []⟩⟩ 0 (fun _ _ => .ok ⟨0, 0, 800, [⟨9, 0, 800, .unconfirmed 3⟩]⟩)
    (fun _ => .error ()) (fun _ => .ok 1) ⟨9, 0, 800, .unconfirmed 3⟩ rfl (by decide)
    rfl
